import Mathlib

/-!
Verification development for the agent-based SIR/SIS epidemic simulator
(`sir.py`, `sis.py`).  The simulator's state and operations are embedded
shallowly: agents are records, the random source is an explicit oracle,
mutation is explicit state passing, and Python integer arithmetic is `Int`.
The two variants differ only in the state a recovered agent transitions to
(`R` in `sir.py` line 161, `S` in `sis.py` line 159) and in the trajectory
bookkeeping, so the shared functions below are parameterized by that state;
`create_SIS_simulation` additionally mirrors the rebinding of
`simulation_name`, `infect_distance` and `max_move` at `sis.py` lines 94-96.
-/

namespace Epi

/-- Health state of an agent: the source stores "S", "I" or "R" in `person[0]`. -/
inductive SState where
  | S
  | I
  | R
deriving DecidableEq, Repr

/-- An agent: the source represents it as the mutable list `[state, x, y]`
(`sir.py` line 101).  Python `==` on such lists is componentwise value
equality, matching the derived `DecidableEq`. -/
structure Person where
  state : SState
  x : Int
  y : Int
deriving DecidableEq, Repr

instance : Inhabited Person := ⟨⟨SState.S, 0, 0⟩⟩

/-- The random source, made explicit: `u k` is the value of the k-th call of
`random.random()` style draws and `z k` the driver of the k-th
`random.randint` draw; a single global call counter `k` indexes the one
underlying stream, mirroring the single global `random` generator. -/
structure Oracle where
  u : Nat → ℚ
  z : Nat → Int

/-- Model of `random.randint(a, b)`: an arbitrary oracle-selected integer in
`[a, b]` (inclusive on both ends, exactly as `random.randint`); `v` is the
oracle value driving the draw. -/
def randint (a b v : Int) : Int := a + v % (b - a + 1)

/-- Configuration record: the keyword parameters of `create_SIR_simulation`
and `create_SIS_simulation` (`simulation_name` only names output files, which
are outside the embedding). -/
structure Config where
  width : Int
  height : Int
  number_of_people : Nat
  num_infected : Int
  infect_rate : ℚ
  recover_rate : ℚ
  infect_distance : Int
  max_move : Int
  max_days : Nat
deriving Repr

/-- Squared Euclidean distance.  The source's `find_distance(p1, p2)` returns
the real square root `((x_diff**2)+(y_diff**2))**0.5`; every use compares it
against `infect_distance`, and for a nonnegative radius
`sqrt q < d ↔ q < d^2`, which is how the comparison is embedded below. -/
def distSq (p q : Person) : Int := (p.x - q.x) ^ 2 + (p.y - q.y) ^ 2

/-- Function `get_cell(x, y, cell_size)`: Python `//` is floor division, i.e.
`Int.fdiv`. -/
def get_cell (x y cell_size : Int) : Int × Int := (x.fdiv cell_size, y.fdiv cell_size)

/-- Cell of agent number `j` of the people list. -/
def cellOf (people : List Person) (cell_size : Int) (j : Nat) : Int × Int :=
  get_cell (people.getD j default).x (people.getD j default).y cell_size

/-- Function `populate_grid(people, cell_size)`: the grid maps a cell to the agents
located in it, in people-list order (Python appends to `grid[cell]` while
scanning `people` in order).  Agents are identified by their index in the
people list, standing for Python object identity. -/
def populate_grid (people : List Person) (cell_size : Int) (c : Int × Int) : List Nat :=
  (List.range people.length).filter (fun j => decide (cellOf people cell_size j = c))

/-- The `(dx, dy)` scan order of the source: `dx in [-1, 0, 1]` outer loop,
`dy in [-1, 0, 1]` inner loop. -/
def offsets : List (Int × Int) :=
  [(-1, -1), (-1, 0), (-1, 1), (0, -1), (0, 0), (0, 1), (1, -1), (1, 0), (1, 1)]

/-- All agents in the 3×3 block of cells around agent `i`'s cell, in the
order the `step` scan visits them. -/
def neighborCandidates (people : List Person) (cell_size : Int) (i : Nat) : List Nat :=
  offsets.flatMap (fun d =>
    populate_grid people cell_size
      ((cellOf people cell_size i).1 + d.1, (cellOf people cell_size i).2 + d.2))

/-- Assignment `p[0] = st` to agent number `j`. -/
def setState (people : List Person) (j : Nat) (st : SState) : List Person :=
  people.set j { people.getD j default with state := st }

/-- Inner body of the scan in `step`: one candidate `p` examined on behalf of
infected agent `i`.  A random draw is consumed only when the
state-and-distance test passes, exactly as in the source (`random.random()`
sits under the `if`).  Positions are read from the current people list; they
are never changed by `step`, so they agree with the grid-build-time
positions. -/
def infectCandidate (infect_distance : Int) (infect_rate : ℚ) (o : Oracle) (i : Nat)
    (acc : List Person × List Nat × Nat) (p : Nat) : List Person × List Nat × Nat :=
  let people := acc.1
  let newInf := acc.2.1
  let k := acc.2.2
  if (people.getD p default).state = SState.S ∧
      distSq (people.getD i default) (people.getD p default) < infect_distance ^ 2 then
    if o.u k < infect_rate then
      (setState people p SState.I, newInf ++ [p], k + 1)
    else
      (people, newInf, k + 1)
  else
    (people, newInf, k)

/-- One iteration of `for i in infected` in `step`: scan the 3×3 block around
`i` (grid built from the step-entry people list `people0`), then draw the
recovery trial (always consumed: `random.random() < recover_rate` is
evaluated unconditionally); on success `i` is appended to `recover` and its
state set to `recover_to` (`'R'` in sir.py, `'S'` in sis.py). -/
def processInfected (recover_to : SState) (infect_distance : Int)
    (infect_rate recover_rate : ℚ) (o : Oracle) (people0 : List Person) (cell_size : Int)
    (acc : List Person × List Nat × List Nat × Nat) (i : Nat) :
    List Person × List Nat × List Nat × Nat :=
  let inner := (neighborCandidates people0 cell_size i).foldl
      (infectCandidate infect_distance infect_rate o i) (acc.1, acc.2.1, acc.2.2.2)
  if o.u inner.2.2 < recover_rate then
    (setState inner.1 i recover_to, inner.2.1, acc.2.2.1 ++ [i], inner.2.2 + 1)
  else
    (inner.1, inner.2.1, acc.2.2.1, inner.2.2 + 1)

/-- Python `infected.remove(r)`: deletes the first element of the list equal
BY VALUE (state and both coordinates) to agent `r` — Python list `==` — not
necessarily `r` itself. -/
def removeFirstEq (people : List Person) : List Nat → Nat → List Nat
  | [], _ => []
  | j :: t, r =>
    if people.getD j default = people.getD r default then t
    else j :: removeFirstEq people t r

/-- Function `step(people, infected, cell_size)` of `sir.py` (lines 140-167) and
`sis.py` (lines 138-165), which differ only in `recover_to`.  Returns
`(infected + new_infected, recovered_num, people, k)` with the mutated people
list and random-call counter made explicit. -/
def step (recover_to : SState) (infect_distance : Int) (infect_rate recover_rate : ℚ)
    (o : Oracle) (people : List Person) (infected : List Nat) (cell_size : Int) (k : Nat) :
    List Nat × Nat × List Person × Nat :=
  let res := infected.foldl
      (processInfected recover_to infect_distance infect_rate recover_rate o people cell_size)
      (people, [], [], k)
  let infected1 := res.2.2.1.foldl (removeFirstEq res.1) infected
  (infected1 ++ res.2.1, res.2.2.1.length, res.1, res.2.2.2)

/-- One agent of `move_all`: both coordinates get an independent
`randint(-max_move, max_move)` offset, each clamped first below by 1 then
above by `dimension - 1`, in source order (x fully handled before y). -/
def movePerson (max_move width height : Int) (o : Oracle)
    (acc : List Person × Nat) (j : Nat) : List Person × Nat :=
  let people := acc.1
  let k := acc.2
  let p := people.getD j default
  let x1 := p.x + randint (-max_move) max_move (o.z k)
  let x2 := if x1 < 1 then 1 else x1
  let x3 := if x2 > width - 1 then width - 1 else x2
  let y1 := p.y + randint (-max_move) max_move (o.z (k + 1))
  let y2 := if y1 < 1 then 1 else y1
  let y3 := if y2 > height - 1 then height - 1 else y2
  (people.set j { p with x := x3, y := y3 }, k + 2)

/-- Function `move_all(people)`: every agent moves, in people-list order. -/
def move_all (max_move width height : Int) (o : Oracle)
    (people : List Person) (k : Nat) : List Person × Nat :=
  (List.range people.length).foldl (movePerson max_move width height o) (people, k)

/-- The seeding loop of both create functions (`sir.py` lines 100-105):
each of the `number_of_people` agents is infected independently with
probability `num_infected / number_of_people` and placed at
`(randint(0, width), randint(0, height))`; infected agents are appended to
the infected list in creation order.  Returns (people, infected indices,
random-call counter).  The ratio is written `mkRat num_infected n`, the same
rational as `(num_infected : ℚ) / (n : ℚ)` (see `mkPeople_ratio_eq_div`
below), in a normal form the kernel can evaluate. -/
def seedPerson (n : Nat) (num_infected : Int) (width height : Int) (o : Oracle)
    (acc : List Person × List Nat × Nat) (_ : Nat) : List Person × List Nat × Nat :=
  let people := acc.1
  let infected := acc.2.1
  let k := acc.2.2
  let st := if o.u k < mkRat num_infected n then SState.I else SState.S
  let x := randint 0 width (o.z (k + 1))
  let y := randint 0 height (o.z (k + 2))
  (people ++ [⟨st, x, y⟩],
   if st = SState.I then infected ++ [people.length] else infected,
   k + 3)

def mkPeople (n : Nat) (num_infected : Int) (width height : Int) (o : Oracle) :
    List Person × List Nat × Nat :=
  (List.range n).foldl (seedPerson n num_infected width height o) ([], [], 0)

/-- The seeding threshold `mkRat num_infected n` is exactly the source's
`num_infected / number_of_people`. -/
theorem mkPeople_ratio_eq_div (a : Int) (n : Nat) : mkRat a n = (a : ℚ) / (n : ℚ) := by
  rw [Rat.mkRat_eq_div]

/-- The run state of `create_SIR_simulation`: the people and infected lists,
the three recorded trajectories, the day counter and the random-call
counter. -/
structure SIRState where
  people : List Person
  infected : List Nat
  simulated_S : List Int
  simulated_I : List Int
  simulated_R : List Int
  step_count : Nat
  k : Nat
deriving Repr, DecidableEq

/-- Body of the SIR day loop (`sir.py` lines 186-201): step with
`cell_size = infect_distance`, move everyone, then append
`R_prev + recovered_amount`, `len(infected)` and
`number_of_people - I - R`. -/
def SIRloopBody (cfg : Config) (o : Oracle) (s : SIRState) : SIRState :=
  let st := step SState.R cfg.infect_distance cfg.infect_rate cfg.recover_rate o
      s.people s.infected cfg.infect_distance s.k
  let mv := move_all cfg.max_move cfg.width cfg.height o st.2.2.1 st.2.2.2
  let newR := s.simulated_R.getLastD 0 + (st.2.1 : Int)
  let newI : Int := st.1.length
  { people := mv.1
    infected := st.1
    simulated_S := s.simulated_S ++ [(cfg.number_of_people : Int) - newI - newR]
    simulated_I := s.simulated_I ++ [newI]
    simulated_R := s.simulated_R ++ [newR]
    step_count := s.step_count + 1
    k := mv.2 }

/-- The SIR `while len(infected) > 0 and step_count <= max_days` loop.  The
loop condition bounds the iteration count by `max_days + 1`, so running it
with that much fuel is exact: the fuel-exhausted branch is reachable only
when the condition is already false (proved in the C5 theorem). -/
def SIRloop (cfg : Config) (o : Oracle) : Nat → SIRState → SIRState
  | 0, s => s
  | fuel + 1, s =>
    if s.infected ≠ [] ∧ s.step_count ≤ cfg.max_days then
      SIRloop cfg o fuel (SIRloopBody cfg o s)
    else s

/-- Function `create_SIR_simulation` (`sir.py` lines 95-215), restricted to the
simulation engine: seeding, the day loop and the recorded trajectories.
Rendering, GIF output and the odeint call consume no randomness and do not
touch the state. -/
def create_SIR_simulation (cfg : Config) (o : Oracle) : SIRState :=
  let mp := mkPeople cfg.number_of_people cfg.num_infected cfg.width cfg.height o
  SIRloop cfg o (cfg.max_days + 1)
    { people := mp.1
      infected := mp.2.1
      simulated_S := [(cfg.number_of_people : Int) - cfg.num_infected]
      simulated_I := [cfg.num_infected]
      simulated_R := [0]
      step_count := 0
      k := mp.2.2 }

/-- The run state of `create_SIS_simulation` (no recovered trajectory). -/
structure SISState where
  people : List Person
  infected : List Nat
  simulated_S : List Int
  simulated_I : List Int
  step_count : Nat
  k : Nat
deriving Repr, DecidableEq

/-- Body of the SIS day loop (`sis.py` lines 184-198).  Note the effective
`infect_distance` and `max_move` are the constants rebound at `sis.py` lines
95-96, not the configured ones; `recovered_amount` is returned by `step` but
not recorded. -/
def SISloopBody (cfg : Config) (o : Oracle) (s : SISState) : SISState :=
  let st := step SState.S 10 cfg.infect_rate cfg.recover_rate o
      s.people s.infected 10 s.k
  let mv := move_all 5 cfg.width cfg.height o st.2.2.1 st.2.2.2
  let newI : Int := st.1.length
  { people := mv.1
    infected := st.1
    simulated_S := s.simulated_S ++ [(cfg.number_of_people : Int) - newI]
    simulated_I := s.simulated_I ++ [newI]
    step_count := s.step_count + 1
    k := mv.2 }

/-- The SIS day loop, same shape as the SIR one. -/
def SISloop (cfg : Config) (o : Oracle) : Nat → SISState → SISState
  | 0, s => s
  | fuel + 1, s =>
    if s.infected ≠ [] ∧ s.step_count ≤ cfg.max_days then
      SISloop cfg o fuel (SISloopBody cfg o s)
    else s

/-- Function `create_SIS_simulation` (`sis.py` lines 90-215).  The function rebinds
`simulation_name = 'simulation1'`, `infect_distance = 10` and `max_move = 5`
at lines 94-96 before any use, so the configured `infect_distance` and
`max_move` fields are never read (the loop body above hard-codes 10 and 5
accordingly). -/
def create_SIS_simulation (cfg : Config) (o : Oracle) : SISState :=
  let mp := mkPeople cfg.number_of_people cfg.num_infected cfg.width cfg.height o
  SISloop cfg o (cfg.max_days + 1)
    { people := mp.1
      infected := mp.2.1
      simulated_S := [(cfg.number_of_people : Int) - cfg.num_infected]
      simulated_I := [cfg.num_infected]
      step_count := 0
      k := mp.2.2 }

/-- Model of `np.linspace(a, b, n)`: `n` evenly spaced points from `a` to `b`
inclusive.  For `n = 1` numpy returns `[a]`; the uniform formula below agrees
because rational division by zero is zero and the numerator is then zero. -/
def linspace (a b : ℚ) (n : Nat) : List ℚ :=
  (List.range n).map (fun (i : Nat) => a + (b - a) * (i : ℚ) / ((n : ℚ) - 1))

/-- The time grid both create functions pass to `odeint` after the run:
`t = np.linspace(0, step_count + 1, step_count + 1)` (`sir.py` line 210,
`sis.py` line 207).  `odeint` returns one row per entry of `t`, so the model
trajectory has exactly the length of this grid. -/
def model_time_grid (step_count : Nat) : List ℚ :=
  linspace 0 ((step_count : ℚ) + 1) (step_count + 1)

/-- The infected-set invariant: the infected list holds exactly the indices
of agents whose state is `I`, each exactly once. -/
def InfConsistent (people : List Person) (infected : List Nat) : Prop :=
  infected.Nodup ∧ (∀ j ∈ infected, j < people.length) ∧
    ∀ j < people.length, (j ∈ infected ↔ (people.getD j default).state = SState.I)

instance (people : List Person) (infected : List Nat) :
    Decidable (InfConsistent people infected) := by
  unfold InfConsistent; exact inferInstance

/-- All agents occupy pairwise distinct positions. -/
def DistinctPos (people : List Person) : Prop :=
  ∀ a < people.length, ∀ b < people.length,
    a ≠ b → ((people.getD a default).x ≠ (people.getD b default).x ∨
             (people.getD a default).y ≠ (people.getD b default).y)

instance (people : List Person) : Decidable (DistinctPos people) := by
  unfold DistinctPos; exact inferInstance


/-! ### Helper lemmas: run-loop invariants -/

/-- Trajectory bookkeeping invariant of the SIR day loop. -/
def SIRTraj (N : Int) (s : SIRState) : Prop :=
  s.simulated_S.length = s.step_count + 1 ∧
  s.simulated_I.length = s.step_count + 1 ∧
  s.simulated_R.length = s.step_count + 1 ∧
  List.zipWith (· + ·) (List.zipWith (· + ·) s.simulated_S s.simulated_I) s.simulated_R
    = List.replicate (s.step_count + 1) N

theorem SIRloopBody_traj (cfg : Config) (o : Oracle) (s : SIRState)
    (h : SIRTraj (cfg.number_of_people : Int) s) :
    SIRTraj (cfg.number_of_people : Int) (SIRloopBody cfg o s) := by
  obtain ⟨hS, hI, hR, hz⟩ := h
  unfold SIRTraj SIRloopBody
  refine ⟨by simp [hS], by simp [hI], by simp [hR], ?_⟩
  rw [List.zipWith_append _ _ _ _ _ (by simp [hS, hI]),
      List.zipWith_append _ _ _ _ _ (by simp [List.length_zipWith, hS, hI, hR]),
      hz, List.replicate_succ' (s.step_count + 1)]
  congr 1
  simp only [List.zipWith_cons_cons, List.zipWith_nil_right]
  congr 2
  ring

theorem SIRloop_traj (cfg : Config) (o : Oracle) :
    ∀ (fuel : Nat) (s : SIRState), SIRTraj (cfg.number_of_people : Int) s →
      SIRTraj (cfg.number_of_people : Int) (SIRloop cfg o fuel s) := by
  intro fuel
  induction fuel with
  | zero => intro s h; exact h
  | succ n ih =>
    intro s h
    rw [SIRloop]
    split
    · exact ih _ (SIRloopBody_traj cfg o s h)
    · exact h

/-- Trajectory bookkeeping invariant of the SIS day loop. -/
def SISTraj (N : Int) (s : SISState) : Prop :=
  s.simulated_S.length = s.step_count + 1 ∧
  s.simulated_I.length = s.step_count + 1 ∧
  List.zipWith (· + ·) s.simulated_S s.simulated_I = List.replicate (s.step_count + 1) N

theorem SISloopBody_traj (cfg : Config) (o : Oracle) (s : SISState)
    (h : SISTraj (cfg.number_of_people : Int) s) :
    SISTraj (cfg.number_of_people : Int) (SISloopBody cfg o s) := by
  obtain ⟨hS, hI, hz⟩ := h
  unfold SISTraj SISloopBody
  refine ⟨by simp [hS], by simp [hI], ?_⟩
  rw [List.zipWith_append _ _ _ _ _ (by simp [hS, hI]),
      hz, List.replicate_succ' (s.step_count + 1)]
  congr 1
  simp only [List.zipWith_cons_cons, List.zipWith_nil_right]
  congr 2
  ring

theorem SISloop_traj (cfg : Config) (o : Oracle) :
    ∀ (fuel : Nat) (s : SISState), SISTraj (cfg.number_of_people : Int) s →
      SISTraj (cfg.number_of_people : Int) (SISloop cfg o fuel s) := by
  intro fuel
  induction fuel with
  | zero => intro s h; exact h
  | succ n ih =>
    intro s h
    rw [SISloop]
    split
    · exact ih _ (SISloopBody_traj cfg o s h)
    · exact h

theorem SIRloop_count_le (cfg : Config) (o : Oracle) :
    ∀ (fuel : Nat) (s : SIRState), s.step_count ≤ cfg.max_days + 1 →
      (SIRloop cfg o fuel s).step_count ≤ cfg.max_days + 1 := by
  intro fuel
  induction fuel with
  | zero => intro s h; exact h
  | succ n ih =>
    intro s h
    rw [SIRloop]
    split
    · next hc => exact ih _ (by simpa [SIRloopBody] using Nat.succ_le_succ hc.2)
    · exact h

theorem SISloop_count_le (cfg : Config) (o : Oracle) :
    ∀ (fuel : Nat) (s : SISState), s.step_count ≤ cfg.max_days + 1 →
      (SISloop cfg o fuel s).step_count ≤ cfg.max_days + 1 := by
  intro fuel
  induction fuel with
  | zero => intro s h; exact h
  | succ n ih =>
    intro s h
    rw [SISloop]
    split
    · next hc => exact ih _ (by simpa [SISloopBody] using Nat.succ_le_succ hc.2)
    · exact h

theorem SIRloop_exit (cfg : Config) (o : Oracle) :
    ∀ (fuel : Nat) (s : SIRState), cfg.max_days + 1 - s.step_count ≤ fuel →
      (SIRloop cfg o fuel s).infected = [] ∨
        cfg.max_days < (SIRloop cfg o fuel s).step_count := by
  intro fuel
  induction fuel with
  | zero =>
    intro s h
    right
    rw [SIRloop]
    omega
  | succ n ih =>
    intro s h
    rw [SIRloop]
    split
    · next hc => exact ih _ (by simp only [SIRloopBody]; omega)
    · next hc =>
      rcases Decidable.not_and_iff_or_not.mp hc with h1 | h2
      · exact Or.inl (not_not.mp h1)
      · exact Or.inr (by omega)

theorem SISloop_exit (cfg : Config) (o : Oracle) :
    ∀ (fuel : Nat) (s : SISState), cfg.max_days + 1 - s.step_count ≤ fuel →
      (SISloop cfg o fuel s).infected = [] ∨
        cfg.max_days < (SISloop cfg o fuel s).step_count := by
  intro fuel
  induction fuel with
  | zero =>
    intro s h
    right
    rw [SISloop]
    omega
  | succ n ih =>
    intro s h
    rw [SISloop]
    split
    · next hc => exact ih _ (by simp only [SISloopBody]; omega)
    · next hc =>
      rcases Decidable.not_and_iff_or_not.mp hc with h1 | h2
      · exact Or.inl (not_not.mp h1)
      · exact Or.inr (by omega)

theorem SIRloop_count_ge (cfg : Config) (o : Oracle) :
    ∀ (fuel : Nat) (s : SIRState), s.step_count ≤ (SIRloop cfg o fuel s).step_count := by
  intro fuel
  induction fuel with
  | zero => intro s; exact Nat.le_refl _
  | succ n ih =>
    intro s
    rw [SIRloop]
    split
    · exact Nat.le_trans (by simp [SIRloopBody]) (ih _)
    · exact Nat.le_refl _

theorem SISloop_count_ge (cfg : Config) (o : Oracle) :
    ∀ (fuel : Nat) (s : SISState), s.step_count ≤ (SISloop cfg o fuel s).step_count := by
  intro fuel
  induction fuel with
  | zero => intro s; exact Nat.le_refl _
  | succ n ih =>
    intro s
    rw [SISloop]
    split
    · exact Nat.le_trans (by simp [SISloopBody]) (ih _)
    · exact Nat.le_refl _

theorem headD_append_left {α : Type _} (l l' : List α) (d : α) (h : l ≠ []) :
    (l ++ l').headD d = l.headD d := by
  cases l with
  | nil => exact absurd rfl h
  | cons a t => rfl

theorem SIRloop_heads (cfg : Config) (o : Oracle) :
    ∀ (fuel : Nat) (s : SIRState),
      s.simulated_S ≠ [] → s.simulated_I ≠ [] → s.simulated_R ≠ [] →
      (SIRloop cfg o fuel s).simulated_S.headD 0 = s.simulated_S.headD 0 ∧
      (SIRloop cfg o fuel s).simulated_I.headD 0 = s.simulated_I.headD 0 ∧
      (SIRloop cfg o fuel s).simulated_R.headD 0 = s.simulated_R.headD 0 := by
  intro fuel
  induction fuel with
  | zero => intro s _ _ _; exact ⟨rfl, rfl, rfl⟩
  | succ n ih =>
    intro s hS hI hR
    rw [SIRloop]
    split
    · obtain ⟨h1, h2, h3⟩ := ih (SIRloopBody cfg o s)
        (by simp [SIRloopBody]) (by simp [SIRloopBody]) (by simp [SIRloopBody])
      refine ⟨?_, ?_, ?_⟩
      · rw [h1]; exact headD_append_left _ _ _ hS
      · rw [h2]; exact headD_append_left _ _ _ hI
      · rw [h3]; exact headD_append_left _ _ _ hR
    · exact ⟨rfl, rfl, rfl⟩

theorem SISloop_heads (cfg : Config) (o : Oracle) :
    ∀ (fuel : Nat) (s : SISState),
      s.simulated_S ≠ [] → s.simulated_I ≠ [] →
      (SISloop cfg o fuel s).simulated_S.headD 0 = s.simulated_S.headD 0 ∧
      (SISloop cfg o fuel s).simulated_I.headD 0 = s.simulated_I.headD 0 := by
  intro fuel
  induction fuel with
  | zero => intro s _ _; exact ⟨rfl, rfl⟩
  | succ n ih =>
    intro s hS hI
    rw [SISloop]
    split
    · obtain ⟨h1, h2⟩ := ih (SISloopBody cfg o s)
        (by simp [SISloopBody]) (by simp [SISloopBody])
      refine ⟨?_, ?_⟩
      · rw [h1]; exact headD_append_left _ _ _ hS
      · rw [h2]; exact headD_append_left _ _ _ hI
    · exact ⟨rfl, rfl⟩

theorem linspace_length (a b : ℚ) (n : Nat) : (linspace a b n).length = n := by
  simp [linspace]

theorem linspace_getLastD (a b : ℚ) (n : Nat) (h : 2 ≤ n) :
    (linspace a b n).getLastD 0 = b := by
  obtain ⟨m, rfl⟩ : ∃ m, n = m + 1 := ⟨n - 1, by omega⟩
  unfold linspace
  rw [List.range_succ, List.map_append, List.map_singleton, List.getLastD_concat]
  have hm : ((m : ℚ)) ≠ 0 := Nat.cast_ne_zero.mpr (by omega)
  push_cast
  field_simp


theorem foldl_inv {α β : Type _} (P : α → Prop) (f : α → β → α) :
    ∀ (l : List β), (∀ a, ∀ b ∈ l, P a → P (f a b)) → ∀ a, P a → P (l.foldl f a) := by
  intro l
  induction l with
  | nil => intro _ a ha; exact ha
  | cons b t ih =>
    intro h a ha
    exact ih (fun a' b' hb' => h a' b' (List.mem_cons_of_mem b hb'))
      (f a b) (h a b (List.mem_cons_self b t) ha)

theorem randint_bounds (a b v : Int) (h : a ≤ b) :
    a ≤ randint a b v ∧ randint a b v ≤ b := by
  unfold randint
  have h1 := Int.emod_nonneg v (show b - a + 1 ≠ 0 by omega)
  have h2 := Int.emod_lt_of_pos v (show 0 < b - a + 1 by omega)
  omega

/-- Same length and same positions, pointwise. -/
def samePos (p q : List Person) : Prop :=
  p.length = q.length ∧ ∀ i : Nat,
    (p.getD i default).x = (q.getD i default).x ∧
    (p.getD i default).y = (q.getD i default).y

theorem samePos_refl (p : List Person) : samePos p p := ⟨rfl, fun _ => ⟨rfl, rfl⟩⟩

theorem samePos_trans {p q r : List Person} (h1 : samePos p q) (h2 : samePos q r) :
    samePos p r :=
  ⟨h1.1.trans h2.1, fun i => ⟨(h1.2 i).1.trans (h2.2 i).1, (h1.2 i).2.trans (h2.2 i).2⟩⟩

theorem getD_setState (people : List Person) (j : Nat) (st : SState) (i : Nat) :
    ((setState people j st).getD i default).x = (people.getD i default).x ∧
    ((setState people j st).getD i default).y = (people.getD i default).y := by
  unfold setState
  simp only [List.getD_eq_getElem?_getD, List.getElem?_set]
  by_cases hji : j = i
  · subst hji
    by_cases hl : j < people.length
    · simp only [if_pos rfl, if_pos hl, Option.getD_some]
      cases hv : people[j]? with
      | none => rw [List.getElem?_eq_none_iff] at hv; omega
      | some v => simp [hv]
    · simp only [if_pos rfl, if_neg hl]
      rw [List.getElem?_eq_none (by omega)]
      trivial
  · simp only [if_neg hji]
    trivial

theorem samePos_setState (people : List Person) (j : Nat) (st : SState) :
    samePos (setState people j st) people :=
  ⟨List.length_set people j _, getD_setState people j st⟩

theorem step_samePos (recover_to : SState) (infect_distance : Int)
    (infect_rate recover_rate : ℚ) (o : Oracle) (people : List Person)
    (infected : List Nat) (cell_size : Int) (k : Nat) :
    samePos (step recover_to infect_distance infect_rate recover_rate o people
      infected cell_size k).2.2.1 people := by
  unfold step
  have main : ∀ (acc : List Person × List Nat × List Nat × Nat),
      samePos acc.1 people →
      samePos ((List.foldl (processInfected recover_to infect_distance infect_rate
        recover_rate o people cell_size) acc infected)).1 people := by
    refine foldl_inv
      (fun (acc : List Person × List Nat × List Nat × Nat) => samePos acc.1 people) _
      infected ?_
    intro acc i _ hacc
    unfold processInfected
    have inner : samePos ((neighborCandidates people cell_size i).foldl
        (infectCandidate infect_distance infect_rate o i)
        (acc.1, acc.2.1, acc.2.2.2)).1 people := by
      refine foldl_inv
        (fun (a : List Person × List Nat × Nat) => samePos a.1 people) _ _ ?_ _ hacc
      intro a p _ ha
      unfold infectCandidate
      dsimp only
      split
      · split
        · exact samePos_trans (samePos_setState _ _ _) ha
        · exact ha
      · exact ha
    dsimp only
    split
    · exact samePos_trans (samePos_setState _ _ _) inner
    · exact inner
  exact main (people, [], [], k) (samePos_refl people)


/-- Every agent's coordinates lie in the closed box `[0, w] × [0, h]`. -/
def InBounds (w h : Int) (people : List Person) : Prop :=
  ∀ p ∈ people, 0 ≤ p.x ∧ p.x ≤ w ∧ 0 ≤ p.y ∧ p.y ≤ h

theorem inBounds_of_samePos {w h : Int} {p q : List Person}
    (hpq : samePos p q) (hq : InBounds w h q) :
    InBounds w h p := by
  intro a ha
  obtain ⟨i, hi, rfl⟩ := List.mem_iff_getElem.mp ha
  have hgd : p[i] = p.getD i default := by
    rw [List.getD_eq_getElem?_getD, List.getElem?_eq_getElem hi, Option.getD_some]
  by_cases hiq : i < q.length
  · have hmem : q.getD i default ∈ q := by
      rw [List.getD_eq_getElem?_getD, List.getElem?_eq_getElem hiq, Option.getD_some]
      exact List.getElem_mem hiq
    have hb := hq _ hmem
    rw [hgd]
    exact ⟨((hpq.2 i).1).symm ▸ hb.1, ((hpq.2 i).1).symm ▸ hb.2.1,
      ((hpq.2 i).2).symm ▸ hb.2.2.1, ((hpq.2 i).2).symm ▸ hb.2.2.2⟩
  · exact absurd (hpq.1 ▸ hi) hiq

theorem mem_setState {people : List Person} {j : Nat} {st : SState} {p : Person}
    (hp : p ∈ setState people j st) :
    p ∈ people ∨ (p.x = (people.getD j default).x ∧ p.y = (people.getD j default).y) := by
  rcases List.mem_or_eq_of_mem_set hp with h | h
  · exact Or.inl h
  · subst h; exact Or.inr ⟨rfl, rfl⟩

theorem getD_mem_or_default (people : List Person) (j : Nat) :
    people.getD j default ∈ people ∨ people.getD j default = default := by
  by_cases hj : j < people.length
  · left
    rw [List.getD_eq_getElem?_getD, List.getElem?_eq_getElem hj, Option.getD_some]
    exact List.getElem_mem hj
  · right
    rw [List.getD_eq_getElem?_getD, List.getElem?_eq_none (by omega), Option.getD_none]

theorem inBounds_setState {w h : Int} {people : List Person} (j : Nat) (st : SState)
    (hb : InBounds w h people) (hw : 0 ≤ w) (hh : 0 ≤ h) :
    InBounds w h (setState people j st) := by
  intro p hp
  rcases mem_setState hp with hmem | ⟨hx, hy⟩
  · exact hb p hmem
  · rcases getD_mem_or_default people j with hm | hd
    · have := hb _ hm
      omega
    · rw [hx, hy, hd]
      refine ⟨le_refl 0, hw, le_refl 0, hh⟩

theorem step_inBounds (recover_to : SState) (infect_distance : Int)
    (infect_rate recover_rate : ℚ) (o : Oracle) (people : List Person)
    (infected : List Nat) (cell_size : Int) (k : Nat) {w h : Int}
    (hb : InBounds w h people) :
    InBounds w h (step recover_to infect_distance infect_rate recover_rate o people
      infected cell_size k).2.2.1 :=
  inBounds_of_samePos
    (step_samePos recover_to infect_distance infect_rate recover_rate o people
      infected cell_size k) hb

/-- The clamped coordinates produced by `move_all` always land in
`[0, dimension]` when the dimension is at least 1 (in fact in
`[min 1 (dimension - 1), max 1 (dimension - 1)]`), regardless of the
incoming coordinate. -/
theorem movePerson_inBounds {w h : Int} (max_move : Int) (o : Oracle)
    (hw : 1 ≤ w) (hh : 1 ≤ h) (acc : List Person × Nat) (j : Nat)
    (hb : InBounds w h acc.1) :
    InBounds w h (movePerson max_move w h o acc j).1 := by
  unfold movePerson
  intro p hp
  dsimp only at hp
  rcases List.mem_or_eq_of_mem_set hp with hmem | rfl
  · exact hb p hmem
  · dsimp only
    constructor
    · split <;> split <;> omega
    constructor
    · split <;> split <;> omega
    constructor
    · split <;> split <;> omega
    · split <;> split <;> omega

theorem move_all_inBounds {w h : Int} (max_move : Int) (o : Oracle)
    (people : List Person) (k : Nat) (hw : 1 ≤ w) (hh : 1 ≤ h)
    (hb : InBounds w h people) :
    InBounds w h (move_all max_move w h o people k).1 := by
  unfold move_all
  exact foldl_inv (fun (acc : List Person × Nat) => InBounds w h acc.1) _ _
    (fun acc j _ hacc => movePerson_inBounds max_move o hw hh acc j hacc)
    (people, k) hb

theorem mkPeople_inBounds (n : Nat) (num_infected : Int) {w h : Int} (o : Oracle)
    (hw : 0 ≤ w) (hh : 0 ≤ h) :
    InBounds w h (mkPeople n num_infected w h o).1 := by
  unfold mkPeople
  refine foldl_inv
    (fun (acc : List Person × List Nat × Nat) => InBounds w h acc.1) _ _ ?_ _ ?_
  · intro acc b _ hacc
    intro p hp
    unfold seedPerson at hp
    dsimp only at hp
    rcases List.mem_append.mp hp with hmem | hone
    · exact hacc p hmem
    · rw [List.mem_singleton] at hone
      subst hone
      dsimp only
      have hx := randint_bounds 0 w (o.z (acc.2.2 + 1)) hw
      have hy := randint_bounds 0 h (o.z (acc.2.2 + 2)) hh
      exact ⟨hx.1, hx.2, hy.1, hy.2⟩
  · intro p hp
    simp at hp


theorem mkPeople_length (n : Nat) (num_infected : Int) (width height : Int) (o : Oracle) :
    (mkPeople n num_infected width height o).1.length = n := by
  unfold mkPeople
  have main : ∀ (l : List Nat) (acc : List Person × List Nat × Nat),
      (List.foldl (seedPerson n num_infected width height o) acc l).1.length
        = acc.1.length + l.length := by
    intro l
    induction l with
    | nil => intro acc; simp
    | cons b t ih =>
      intro acc
      rw [List.foldl_cons, ih]
      simp [seedPerson]
      omega
  rw [main (List.range n) ([], [], 0)]
  simp

theorem SIRloop_inBounds (cfg : Config) (o : Oracle) (hw : 1 ≤ cfg.width)
    (hh : 1 ≤ cfg.height) :
    ∀ (fuel : Nat) (s : SIRState), InBounds cfg.width cfg.height s.people →
      InBounds cfg.width cfg.height (SIRloop cfg o fuel s).people := by
  intro fuel
  induction fuel with
  | zero => intro s h; exact h
  | succ n ih =>
    intro s h
    rw [SIRloop]
    split
    · refine ih _ ?_
      unfold SIRloopBody
      exact move_all_inBounds _ o _ _ hw hh (step_inBounds _ _ _ _ o _ _ _ _ h)
    · exact h

theorem SISloop_inBounds (cfg : Config) (o : Oracle) (hw : 1 ≤ cfg.width)
    (hh : 1 ≤ cfg.height) :
    ∀ (fuel : Nat) (s : SISState), InBounds cfg.width cfg.height s.people →
      InBounds cfg.width cfg.height (SISloop cfg o fuel s).people := by
  intro fuel
  induction fuel with
  | zero => intro s h; exact h
  | succ n ih =>
    intro s h
    rw [SISloop]
    split
    · refine ih _ ?_
      unfold SISloopBody
      exact move_all_inBounds _ o _ _ hw hh (step_inBounds _ _ _ _ o _ _ _ _ h)
    · exact h

theorem SIRcreate_count_pos (cfg : Config) (o : Oracle)
    (hne : (mkPeople cfg.number_of_people cfg.num_infected cfg.width cfg.height o).2.1
      ≠ []) :
    1 ≤ (create_SIR_simulation cfg o).step_count := by
  unfold create_SIR_simulation
  rw [SIRloop, if_pos ⟨hne, Nat.zero_le _⟩]
  refine le_trans ?_ (SIRloop_count_ge cfg o cfg.max_days _)
  simp [SIRloopBody]

theorem SIScreate_count_pos (cfg : Config) (o : Oracle)
    (hne : (mkPeople cfg.number_of_people cfg.num_infected cfg.width cfg.height o).2.1
      ≠ []) :
    1 ≤ (create_SIS_simulation cfg o).step_count := by
  unfold create_SIS_simulation
  rw [SISloop, if_pos ⟨hne, Nat.zero_le _⟩]
  refine le_trans ?_ (SISloop_count_ge cfg o cfg.max_days _)
  simp [SISloopBody]

/-- C1 (confirmed).  Population conservation: in every recorded day of the
agent-based trajectory, `S_d + I_d + R_d = number_of_people` for SIR and
`S_d + I_d = number_of_people` for SIS (the trajectories are pointwise-summed
with `zipWith` and equal the constant list). -/
theorem C1_population_conservation (cfg : Config) (o : Oracle) :
    (List.zipWith (· + ·)
        (List.zipWith (· + ·) (create_SIR_simulation cfg o).simulated_S
          (create_SIR_simulation cfg o).simulated_I)
        (create_SIR_simulation cfg o).simulated_R
      = List.replicate ((create_SIR_simulation cfg o).step_count + 1)
          (cfg.number_of_people : Int)) ∧
    (List.zipWith (· + ·) (create_SIS_simulation cfg o).simulated_S
        (create_SIS_simulation cfg o).simulated_I
      = List.replicate ((create_SIS_simulation cfg o).step_count + 1)
          (cfg.number_of_people : Int)) := by
  constructor
  · have h := SIRloop_traj cfg o (cfg.max_days + 1)
      { people := (mkPeople cfg.number_of_people cfg.num_infected cfg.width cfg.height o).1
        infected := (mkPeople cfg.number_of_people cfg.num_infected cfg.width cfg.height o).2.1
        simulated_S := [(cfg.number_of_people : Int) - cfg.num_infected]
        simulated_I := [cfg.num_infected]
        simulated_R := [0]
        step_count := 0
        k := (mkPeople cfg.number_of_people cfg.num_infected cfg.width cfg.height o).2.2 }
      (by refine ⟨rfl, rfl, rfl, ?_⟩
          simp [List.zipWith])
    exact h.2.2.2
  · have h := SISloop_traj cfg o (cfg.max_days + 1)
      { people := (mkPeople cfg.number_of_people cfg.num_infected cfg.width cfg.height o).1
        infected := (mkPeople cfg.number_of_people cfg.num_infected cfg.width cfg.height o).2.1
        simulated_S := [(cfg.number_of_people : Int) - cfg.num_infected]
        simulated_I := [cfg.num_infected]
        step_count := 0
        k := (mkPeople cfg.number_of_people cfg.num_infected cfg.width cfg.height o).2.2 }
      (by refine ⟨rfl, rfl, ?_⟩
          simp [List.zipWith])
    exact h.2.2

/-- C5 (confirmed).  The day loop executes its body at most `max_days + 1`
times (`step_count` counts body executions, starting at 0), and on exit the
loop condition is false: the infected list is empty or the day count has
exceeded `max_days`. -/
theorem C5_termination (cfg : Config) (o : Oracle) :
    ((create_SIR_simulation cfg o).step_count ≤ cfg.max_days + 1 ∧
      ((create_SIR_simulation cfg o).infected = [] ∨
        cfg.max_days < (create_SIR_simulation cfg o).step_count)) ∧
    ((create_SIS_simulation cfg o).step_count ≤ cfg.max_days + 1 ∧
      ((create_SIS_simulation cfg o).infected = [] ∨
        cfg.max_days < (create_SIS_simulation cfg o).step_count)) := by
  constructor
  · unfold create_SIR_simulation
    exact ⟨SIRloop_count_le cfg o _ _ (Nat.zero_le _),
      SIRloop_exit cfg o _ _ (Nat.le_refl _)⟩
  · unfold create_SIS_simulation
    exact ⟨SISloop_count_le cfg o _ _ (Nat.zero_le _),
      SISloop_exit cfg o _ _ (Nat.le_refl _)⟩


theorem SISloop_config_irrelevant (cfg : Config) (d m : Int) (o : Oracle) :
    ∀ (fuel : Nat) (s : SISState),
      SISloop { cfg with infect_distance := d, max_move := m } o fuel s
        = SISloop cfg o fuel s := by
  intro fuel
  induction fuel with
  | zero => intro s; rfl
  | succ n ih =>
    intro s
    simp only [SISloop, SISloopBody, ih]

/-- C7 (code_bug).  `create_SIS_simulation` does NOT honor the caller-supplied
`infect_distance` and `max_move` (nor `simulation_name`): `sis.py` lines 94-96
rebind them to the constants `'simulation1'`, `10` and `5` before first use,
so the run result is entirely independent of the supplied values.  The
corresponding `create_SIR_simulation` honors them. -/
theorem C7_SIS_ignores_options (cfg : Config) (o : Oracle) (d m : Int) :
    create_SIS_simulation { cfg with infect_distance := d, max_move := m } o
      = create_SIS_simulation cfg o := by
  unfold create_SIS_simulation
  exact SISloop_config_irrelevant cfg d m o _ _

/-- C8 (corrected), amended claim: the ODE time grid is
`linspace(0, step_count + 1, step_count + 1)`.  It has exactly the same
number of entries as the agent trajectory (`step_count + 1`), but it runs
from 0 to `step_count + 1` — one day beyond the day count actually reached —
whenever at least one day ran (for `step_count = 0` the one-point grid is
`[0]`). -/
theorem C8_model_grid (cfg : Config) (o : Oracle) :
    ((model_time_grid (create_SIR_simulation cfg o).step_count).length
        = (create_SIR_simulation cfg o).simulated_I.length ∧
      (create_SIR_simulation cfg o).simulated_I.length
        = (create_SIR_simulation cfg o).step_count + 1 ∧
      (1 ≤ (create_SIR_simulation cfg o).step_count →
        (model_time_grid (create_SIR_simulation cfg o).step_count).getLastD 0
          = ((create_SIR_simulation cfg o).step_count : ℚ) + 1)) ∧
    ((model_time_grid (create_SIS_simulation cfg o).step_count).length
        = (create_SIS_simulation cfg o).simulated_I.length ∧
      (create_SIS_simulation cfg o).simulated_I.length
        = (create_SIS_simulation cfg o).step_count + 1 ∧
      (1 ≤ (create_SIS_simulation cfg o).step_count →
        (model_time_grid (create_SIS_simulation cfg o).step_count).getLastD 0
          = ((create_SIS_simulation cfg o).step_count : ℚ) + 1)) := by
  constructor
  · have hlen : (create_SIR_simulation cfg o).simulated_I.length
        = (create_SIR_simulation cfg o).step_count + 1 := by
      have h := SIRloop_traj cfg o (cfg.max_days + 1)
        { people := (mkPeople cfg.number_of_people cfg.num_infected cfg.width cfg.height o).1
          infected := (mkPeople cfg.number_of_people cfg.num_infected cfg.width cfg.height o).2.1
          simulated_S := [(cfg.number_of_people : Int) - cfg.num_infected]
          simulated_I := [cfg.num_infected]
          simulated_R := [0]
          step_count := 0
          k := (mkPeople cfg.number_of_people cfg.num_infected cfg.width cfg.height o).2.2 }
        (by refine ⟨rfl, rfl, rfl, ?_⟩
            simp [List.zipWith])
      exact h.2.1
    refine ⟨?_, hlen, ?_⟩
    · rw [hlen]
      exact (linspace_length _ _ _)
    · intro h1
      exact linspace_getLastD _ _ _ (by omega)
  · have hlen : (create_SIS_simulation cfg o).simulated_I.length
        = (create_SIS_simulation cfg o).step_count + 1 := by
      have h := SISloop_traj cfg o (cfg.max_days + 1)
        { people := (mkPeople cfg.number_of_people cfg.num_infected cfg.width cfg.height o).1
          infected := (mkPeople cfg.number_of_people cfg.num_infected cfg.width cfg.height o).2.1
          simulated_S := [(cfg.number_of_people : Int) - cfg.num_infected]
          simulated_I := [cfg.num_infected]
          step_count := 0
          k := (mkPeople cfg.number_of_people cfg.num_infected cfg.width cfg.height o).2.2 }
        (by refine ⟨rfl, rfl, ?_⟩
            simp [List.zipWith])
      exact h.2.1
    refine ⟨?_, hlen, ?_⟩
    · rw [hlen]
      exact (linspace_length _ _ _)
    · intro h1
      exact linspace_getLastD _ _ _ (by omega)

/-- Witness for C8_model_grid: a concrete one-day run (one agent, it recovers
on day 1), where the grid end point is `step_count + 1 = 2`. -/
theorem C8_model_grid_witness :
    1 ≤ (create_SIR_simulation ⟨5, 5, 1, 1, mkRat 1 2, 1, 10, 5, 0⟩
      ⟨fun _ => 0, fun _ => 0⟩).step_count ∧
    (model_time_grid (create_SIR_simulation ⟨5, 5, 1, 1, mkRat 1 2, 1, 10, 5, 0⟩
        ⟨fun _ => 0, fun _ => 0⟩).step_count).getLastD 0
      = ((create_SIR_simulation ⟨5, 5, 1, 1, mkRat 1 2, 1, 10, 5, 0⟩
        ⟨fun _ => 0, fun _ => 0⟩).step_count : ℚ) + 1 :=
  ⟨by decide,
   (C8_model_grid ⟨5, 5, 1, 1, mkRat 1 2, 1, 10, 5, 0⟩
     ⟨fun _ => 0, fun _ => 0⟩).1.2.2 (by decide)⟩

/-- Counterexample to C8 as stated: in the same concrete run the day count
actually reached is 1, but the time grid ends at 2, not 1 — the grid does not
run "from 0 to the number of simulated days actually run". -/
theorem C8_grid_endpoint_counterexample :
    (model_time_grid (create_SIR_simulation ⟨5, 5, 1, 1, mkRat 1 2, 1, 10, 5, 0⟩
        ⟨fun _ => 0, fun _ => 0⟩).step_count).getLastD 0
      ≠ ((create_SIR_simulation ⟨5, 5, 1, 1, mkRat 1 2, 1, 10, 5, 0⟩
        ⟨fun _ => 0, fun _ => 0⟩).step_count : ℚ) := by
  have h : (create_SIR_simulation ⟨5, 5, 1, 1, mkRat 1 2, 1, 10, 5, 0⟩
      ⟨fun _ => 0, fun _ => 0⟩).step_count = 1 := by decide
  rw [h]
  rw [show model_time_grid 1 = linspace 0 2 2 by norm_num [model_time_grid]]
  rw [linspace_getLastD 0 2 2 (by norm_num)]
  norm_num


/-- C10 (confirmed).  The recorded day-0 entries are the requested seed, not
the realized random draw: `simulated_I[0] = num_infected`,
`simulated_S[0] = number_of_people - num_infected` (and `simulated_R[0] = 0`
in SIR) for every configuration and oracle, while the initial infected set is
seeded per-agent by independent Bernoulli(num_infected/number_of_people)
trials; in the concrete two-agent run below the draw infects both agents, so
the realized count 2 differs from the recorded day-0 count 1. -/
theorem C10_day0_recorded_vs_realized :
    (∀ (cfg : Config) (o : Oracle),
      (create_SIR_simulation cfg o).simulated_I.headD 0 = cfg.num_infected ∧
      (create_SIR_simulation cfg o).simulated_S.headD 0
        = (cfg.number_of_people : Int) - cfg.num_infected ∧
      (create_SIR_simulation cfg o).simulated_R.headD 0 = 0 ∧
      (create_SIS_simulation cfg o).simulated_I.headD 0 = cfg.num_infected ∧
      (create_SIS_simulation cfg o).simulated_S.headD 0
        = (cfg.number_of_people : Int) - cfg.num_infected) ∧
    (((mkPeople 2 1 5 5 ⟨fun _ => 0, fun _ => 0⟩).2.1.length : Int)
      ≠ (create_SIR_simulation ⟨5, 5, 2, 1, mkRat 1 2, 1, 10, 5, 0⟩
          ⟨fun _ => 0, fun _ => 0⟩).simulated_I.headD 0) := by
  constructor
  · intro cfg o
    have hR := SIRloop_heads cfg o (cfg.max_days + 1)
      { people := (mkPeople cfg.number_of_people cfg.num_infected cfg.width cfg.height o).1
        infected := (mkPeople cfg.number_of_people cfg.num_infected cfg.width cfg.height o).2.1
        simulated_S := [(cfg.number_of_people : Int) - cfg.num_infected]
        simulated_I := [cfg.num_infected]
        simulated_R := [0]
        step_count := 0
        k := (mkPeople cfg.number_of_people cfg.num_infected cfg.width cfg.height o).2.2 }
      (by simp) (by simp) (by simp)
    have hS := SISloop_heads cfg o (cfg.max_days + 1)
      { people := (mkPeople cfg.number_of_people cfg.num_infected cfg.width cfg.height o).1
        infected := (mkPeople cfg.number_of_people cfg.num_infected cfg.width cfg.height o).2.1
        simulated_S := [(cfg.number_of_people : Int) - cfg.num_infected]
        simulated_I := [cfg.num_infected]
        step_count := 0
        k := (mkPeople cfg.number_of_people cfg.num_infected cfg.width cfg.height o).2.2 }
      (by simp) (by simp)
    exact ⟨hR.2.1, hR.1, hR.2.2, hS.2, hS.1⟩
  · decide

/-- C6 (corrected), amended claim: the code performs NO configuration
validation — there is no `ConfigurationError` anywhere in the source — so
even when `infect_rate` or `recover_rate` lies outside `[0,1]`, a dimension
is non-positive, or `num_infected > number_of_people`, no error is raised
and stepping begins normally: whenever the seeded infected list is nonempty,
at least one simulation day executes in both variants. -/
theorem C6_no_validation (cfg : Config) (o : Oracle)
    (hbad : cfg.infect_rate < 0 ∨ 1 < cfg.infect_rate ∨
      cfg.recover_rate < 0 ∨ 1 < cfg.recover_rate ∨
      cfg.width ≤ 0 ∨ cfg.height ≤ 0 ∨
      (cfg.number_of_people : Int) < cfg.num_infected)
    (hseed : (mkPeople cfg.number_of_people cfg.num_infected cfg.width cfg.height o).2.1
      ≠ []) :
    1 ≤ (create_SIR_simulation cfg o).step_count ∧
    1 ≤ (create_SIS_simulation cfg o).step_count :=
  ⟨SIRcreate_count_pos cfg o hseed, SIScreate_count_pos cfg o hseed⟩

/-- Witness for C6_no_validation: `infect_rate = 3` is outside `[0,1]`, yet
a day executes. -/
theorem C6_no_validation_witness :
    1 ≤ (create_SIR_simulation ⟨5, 5, 1, 1, 3, 1, 10, 5, 0⟩
      ⟨fun _ => 0, fun _ => 0⟩).step_count ∧
    1 ≤ (create_SIS_simulation ⟨5, 5, 1, 1, 3, 1, 10, 5, 0⟩
      ⟨fun _ => 0, fun _ => 0⟩).step_count :=
  C6_no_validation ⟨5, 5, 1, 1, 3, 1, 10, 5, 0⟩ ⟨fun _ => 0, fun _ => 0⟩
    (Or.inr (Or.inl (by decide))) (by decide)

/-- Counterexample to C6 as stated: with the out-of-range `infect_rate = 3`
the claim requires that no simulation day is executed, but one full day runs
in each variant. -/
theorem C6_day_runs_despite_invalid_config :
    (create_SIR_simulation ⟨5, 5, 1, 1, 3, 1, 10, 5, 0⟩
      ⟨fun _ => 0, fun _ => 0⟩).step_count = 1 ∧
    (create_SIS_simulation ⟨5, 5, 1, 1, 3, 1, 10, 5, 0⟩
      ⟨fun _ => 0, fun _ => 0⟩).step_count = 1 := by
  decide


/-- C9 (corrected), amended claim: coordinates always lie in the CLOSED box
`[0, width] × [0, height]` (for dimensions ≥ 1), not the half-open one: the
initial placement uses `random.randint(0, width)`, whose upper bound is
inclusive, so `x = width` is possible before the first movement step.  In
detail: (1) initial placement lands in the closed box; (2) `step` never
changes any position; (3) `move_all` clamps every coordinate into
`[1, dimension - 1] ⊆ [0, dimension]`; (4) hence every agent of a completed
run of either variant lies in the closed box. -/
theorem C9_coordinate_domain :
    (∀ (n : Nat) (num_infected w h : Int) (o : Oracle), 0 ≤ w → 0 ≤ h →
      InBounds w h (mkPeople n num_infected w h o).1) ∧
    (∀ (recover_to : SState) (infect_distance : Int) (infect_rate recover_rate : ℚ)
      (o : Oracle) (people : List Person) (infected : List Nat) (cell_size : Int)
      (k : Nat),
      samePos (step recover_to infect_distance infect_rate recover_rate o people
        infected cell_size k).2.2.1 people) ∧
    (∀ (max_move w h : Int) (o : Oracle) (people : List Person) (k : Nat),
      1 ≤ w → 1 ≤ h → InBounds w h people →
      InBounds w h (move_all max_move w h o people k).1) ∧
    (∀ (cfg : Config) (o : Oracle), 1 ≤ cfg.width → 1 ≤ cfg.height →
      InBounds cfg.width cfg.height (create_SIR_simulation cfg o).people ∧
      InBounds cfg.width cfg.height (create_SIS_simulation cfg o).people) := by
  refine ⟨?_, step_samePos, ?_, ?_⟩
  · intro n num_infected w h o hw hh
    exact mkPeople_inBounds n num_infected o hw hh
  · intro max_move w h o people k hw hh hb
    exact move_all_inBounds max_move o people k hw hh hb
  · intro cfg o hw hh
    constructor
    · unfold create_SIR_simulation
      exact SIRloop_inBounds cfg o hw hh _ _
        (mkPeople_inBounds _ _ o (by omega) (by omega))
    · unfold create_SIS_simulation
      exact SISloop_inBounds cfg o hw hh _ _
        (mkPeople_inBounds _ _ o (by omega) (by omega))

/-- Witness for C9_coordinate_domain: a concrete completed run on a 4×4 box
whose agents all lie in `[0,4] × [0,4]`. -/
theorem C9_coordinate_domain_witness :
    InBounds 4 4 (create_SIR_simulation ⟨4, 4, 1, 1, mkRat 1 2, 1, 10, 5, 0⟩
      ⟨fun _ => 0, fun _ => 0⟩).people ∧
    InBounds 4 4 (create_SIS_simulation ⟨4, 4, 1, 1, mkRat 1 2, 1, 10, 5, 0⟩
      ⟨fun _ => 0, fun _ => 0⟩).people :=
  C9_coordinate_domain.2.2.2 ⟨4, 4, 1, 1, mkRat 1 2, 1, 10, 5, 0⟩
    ⟨fun _ => 0, fun _ => 0⟩ (by decide) (by decide)

/-- Counterexample to C9 as stated: with width 4 the initial placement can
put an agent at `x = 4 = width`, violating `x ∈ [0, width)` — here for the
oracle whose `randint(0, 4)` draw yields 4. -/
theorem C9_initial_x_eq_width_counterexample :
    ¬ (((mkPeople 1 1 4 4 ⟨fun _ => 1, fun _ => 4⟩).1.getD 0 default).x < 4) := by
  decide


theorem abs_lt_of_sq_lt_sq' {t D : Int} (hD : 0 < D) (h : t ^ 2 < D ^ 2) :
    -D < t ∧ t < D := by
  constructor <;> nlinarith [sq_nonneg (t - D), sq_nonneg (t + D)]

theorem fdiv_within_one {a b D : Int} (hD : 0 < D) (h1 : b - D < a) (h2 : a < b + D) :
    b.fdiv D - 1 ≤ a.fdiv D ∧ a.fdiv D ≤ b.fdiv D + 1 := by
  rw [Int.fdiv_eq_ediv _ (le_of_lt hD), Int.fdiv_eq_ediv _ (le_of_lt hD)]
  constructor
  · have h5 : ((b + 1) + (-1) * D) / D ≤ a / D := Int.ediv_le_ediv hD (by omega)
    rw [Int.add_mul_ediv_right _ _ hD.ne'] at h5
    have h6 : b / D ≤ (b + 1) / D := Int.ediv_le_ediv hD (by omega)
    omega
  · have h3 : a / D ≤ ((b - 1) + 1 * D) / D := Int.ediv_le_ediv hD (by omega)
    rw [Int.add_mul_ediv_right _ _ hD.ne'] at h3
    have h4 : (b - 1) / D ≤ b / D := Int.ediv_le_ediv hD (by omega)
    omega

theorem mem_populate_grid_self (people : List Person) (cs : Int) (j : Nat)
    (hj : j < people.length) :
    j ∈ populate_grid people cs (cellOf people cs j) := by
  unfold populate_grid
  rw [List.mem_filter]
  exact ⟨List.mem_range.mpr hj, by simp⟩


/-- C3 (confirmed).  Spatial-grid cover: with the grid cell size equal to the
infection radius `D > 0`, any agent `j` whose Euclidean distance to agent `i`
is strictly below `D` (equivalently, squared distance below `D^2`) lies in
the same grid cell as `i` or one of its 8 neighbors, and is therefore visited
by the 3×3-block scan `neighborCandidates` that `step` iterates over. -/
theorem C3_grid_cover (people : List Person) (D : Int) (i j : Nat)
    (hD : 0 < D) (hj : j < people.length)
    (hdist : distSq (people.getD i default) (people.getD j default) < D ^ 2) :
    ((cellOf people D j).1 - (cellOf people D i).1) ∈ ([-1, 0, 1] : List Int) ∧
    ((cellOf people D j).2 - (cellOf people D i).2) ∈ ([-1, 0, 1] : List Int) ∧
    j ∈ neighborCandidates people D i := by
  have hx2 : ((people.getD j default).x - (people.getD i default).x) ^ 2 < D ^ 2 := by
    have := sq_nonneg ((people.getD i default).y - (people.getD j default).y)
    unfold distSq at hdist
    nlinarith [sq_nonneg ((people.getD i default).x - (people.getD j default).x)]
  have hy2 : ((people.getD j default).y - (people.getD i default).y) ^ 2 < D ^ 2 := by
    unfold distSq at hdist
    nlinarith [sq_nonneg ((people.getD i default).y - (people.getD j default).y)]
  obtain ⟨hxl, hxr⟩ := abs_lt_of_sq_lt_sq' hD hx2
  obtain ⟨hyl, hyr⟩ := abs_lt_of_sq_lt_sq' hD hy2
  have hxd := fdiv_within_one hD (show (people.getD i default).x - D
      < (people.getD j default).x by omega)
    (show (people.getD j default).x < (people.getD i default).x + D by omega)
  have hyd := fdiv_within_one hD (show (people.getD i default).y - D
      < (people.getD j default).y by omega)
    (show (people.getD j default).y < (people.getD i default).y + D by omega)
  have hcx : (cellOf people D j).1 - (cellOf people D i).1
      = (people.getD j default).x.fdiv D - (people.getD i default).x.fdiv D := rfl
  have hcy : (cellOf people D j).2 - (cellOf people D i).2
      = (people.getD j default).y.fdiv D - (people.getD i default).y.fdiv D := rfl
  refine ⟨?_, ?_, ?_⟩
  · rw [hcx]
    simp only [List.mem_cons, List.mem_singleton, List.not_mem_nil, or_false]
    omega
  · rw [hcy]
    simp only [List.mem_cons, List.mem_singleton, List.not_mem_nil, or_false]
    omega
  · unfold neighborCandidates
    rw [List.mem_flatMap]
    refine ⟨((cellOf people D j).1 - (cellOf people D i).1,
             (cellOf people D j).2 - (cellOf people D i).2), ?_, ?_⟩
    · rw [hcx, hcy]
      simp only [offsets, List.mem_cons, List.not_mem_nil, or_false, Prod.mk.injEq]
      omega
    · have hcell : ((cellOf people D i).1 + ((cellOf people D j).1 - (cellOf people D i).1),
          (cellOf people D i).2 + ((cellOf people D j).2 - (cellOf people D i).2))
          = cellOf people D j := by
        rw [Prod.ext_iff]
        constructor <;> dsimp only <;> omega
      rw [hcell]
      exact mem_populate_grid_self people D j hj

/-- Witness for C3_grid_cover: two agents at distance 5 < 10 = D; agent 1 is
among the candidates scanned on behalf of agent 0. -/
theorem C3_grid_cover_witness :
    1 ∈ neighborCandidates [⟨SState.I, 0, 0⟩, ⟨SState.S, 3, 4⟩] 10 0 :=
  (C3_grid_cover [⟨SState.I, 0, 0⟩, ⟨SState.S, 3, 4⟩] 10 0 1
    (by decide) (by decide) (by decide)).2.2


/-! ### Helper lemmas: the infected-set invariant through `step` -/

theorem getD_setState_self (people : List Person) (j : Nat) (st : SState)
    (hj : j < people.length) :
    (setState people j st).getD j default = { people.getD j default with state := st } := by
  unfold setState
  rw [List.getD_eq_getElem?_getD, List.getElem?_set_self (by simpa using hj),
    Option.getD_some]

theorem getD_setState_ne (people : List Person) (j : Nat) (st : SState) (i : Nat)
    (hij : i ≠ j) :
    (setState people j st).getD i default = people.getD i default := by
  unfold setState
  rw [List.getD_eq_getElem?_getD, List.getElem?_set_ne (fun h => hij h.symm),
    ← List.getD_eq_getElem?_getD]

theorem mem_neighborCandidates_lt (people : List Person) (cs : Int) (i p : Nat)
    (hp : p ∈ neighborCandidates people cs i) : p < people.length := by
  unfold neighborCandidates at hp
  rw [List.mem_flatMap] at hp
  obtain ⟨d, _, hp⟩ := hp
  unfold populate_grid at hp
  rw [List.mem_filter] at hp
  exact List.mem_range.mp hp.1

/-- Invariant carried through the infection scan of one `step` call, with the
recover list `rc` fixed.  `τ = (people, new_infected, counter)`. -/
def InnerInv (rst : SState) (people0 : List Person) (infected0 rc : List Nat)
    (τ : List Person × List Nat × Nat) : Prop :=
  samePos τ.1 people0 ∧
  τ.2.1.Nodup ∧
  (∀ j ∈ τ.2.1, j < people0.length) ∧
  (∀ j, j < people0.length →
    (((τ.1.getD j default).state = SState.I) ↔
      ((j ∈ infected0 ∧ j ∉ rc) ∨ j ∈ τ.2.1))) ∧
  (∀ j ∈ τ.2.1, j ∉ infected0 ∨ j ∈ rc) ∧
  (rst = SState.R → ∀ j ∈ rc, (τ.1.getD j default).state = SState.R)

theorem infectCandidate_innerInv (rst : SState) (people0 : List Person)
    (infected0 rc : List Nat) (D : Int) (β : ℚ) (o : Oracle) (i p : Nat)
    (hp : p < people0.length) (τ : List Person × List Nat × Nat)
    (hτ : InnerInv rst people0 infected0 rc τ) :
    InnerInv rst people0 infected0 rc (infectCandidate D β o i τ p) := by
  obtain ⟨hpos, hnd, hbd, hiff, hdis, hR⟩ := hτ
  unfold infectCandidate
  dsimp only
  split
  · next hcond =>
    split
    · -- the flip: p was S, becomes I, appended to new_infected
      have hSp : (τ.1.getD p default).state = SState.S := hcond.1
      have hpt : p < τ.1.length := by rw [hpos.1]; exact hp
      have hpni : p ∉ τ.2.1 := fun hmem =>
        by have := (hiff p hp).mpr (Or.inr hmem); rw [hSp] at this; cases this
      refine ⟨samePos_trans (samePos_setState _ _ _) hpos, ?_, ?_, ?_, ?_, ?_⟩
      · exact List.Nodup.append hnd (List.nodup_singleton p)
          (fun a ha hb => by rw [List.mem_singleton] at hb; subst hb; exact hpni ha)
      · intro j hj
        rcases List.mem_append.mp hj with h | h
        · exact hbd j h
        · rw [List.mem_singleton] at h; subst h; exact hp
      · intro j hj
        by_cases hjp : j = p
        · subst hjp
          rw [getD_setState_self _ _ _ hpt]
          simp
        · rw [getD_setState_ne _ _ _ _ hjp]
          rw [hiff j hj]
          simp only [List.mem_append, List.mem_singleton]
          constructor
          · rintro (h | h)
            · exact Or.inl h
            · exact Or.inr (Or.inl h)
          · rintro (h | h | h)
            · exact Or.inl h
            · exact Or.inr h
            · exact absurd h hjp
      · intro j hj
        rcases List.mem_append.mp hj with h | h
        · exact hdis j h
        · rw [List.mem_singleton] at h
          subst h
          by_contra hc
          push_neg at hc
          have : (τ.1.getD j default).state = SState.I :=
            (hiff j hp).mpr (Or.inl ⟨hc.1, hc.2⟩)
          rw [hSp] at this
          cases this
      · intro hrst j hj
        have hjR := hR hrst j hj
        have hjp : j ≠ p := fun h => by
          rw [h, hSp] at hjR; cases hjR
        rw [getD_setState_ne _ _ _ _ hjp]
        exact hjR
    · exact ⟨hpos, hnd, hbd, hiff, hdis, hR⟩
  · exact ⟨hpos, hnd, hbd, hiff, hdis, hR⟩

theorem scan_innerInv (rst : SState) (people0 : List Person)
    (infected0 rc : List Nat) (D cs : Int) (β : ℚ) (o : Oracle) (i : Nat)
    (τ : List Person × List Nat × Nat)
    (hτ : InnerInv rst people0 infected0 rc τ) :
    InnerInv rst people0 infected0 rc
      ((neighborCandidates people0 cs i).foldl (infectCandidate D β o i) τ) :=
  foldl_inv (InnerInv rst people0 infected0 rc) _ _
    (fun τ' p hp hτ' => infectCandidate_innerInv rst people0 infected0 rc D β o i p
      (mem_neighborCandidates_lt people0 cs i p hp) τ' hτ') τ hτ


/-- Invariant carried through the outer `for i in infected` loop of one
`step` call; `pre` is the already-processed prefix of the infected list and
`σ = (people, new_infected, recover, counter)`. -/
def StepInv (rst : SState) (people0 : List Person) (infected0 pre : List Nat)
    (σ : List Person × List Nat × List Nat × Nat) : Prop :=
  σ.2.2.1.Sublist pre ∧
  InnerInv rst people0 infected0 σ.2.2.1 (σ.1, σ.2.1, σ.2.2.2)

theorem processInfected_stepInv (rst : SState) (people0 : List Person)
    (infected0 pre : List Nat) (D cs : Int) (β γ : ℚ) (o : Oracle) (i : Nat)
    (hrst : rst = SState.R ∨ rst = SState.S)
    (hinv : InfConsistent people0 infected0)
    (hi_mem : i ∈ infected0) (hi_pre : i ∉ pre)
    (σ : List Person × List Nat × List Nat × Nat)
    (hσ : StepInv rst people0 infected0 pre σ) :
    StepInv rst people0 infected0 (pre ++ [i])
      (processInfected rst D β γ o people0 cs σ i) := by
  obtain ⟨hsub, hin⟩ := hσ
  have hi_lt : i < people0.length := hinv.2.1 i hi_mem
  have hi_rc : i ∉ σ.2.2.1 := fun h => hi_pre (hsub.subset h)
  have hscan := scan_innerInv rst people0 infected0 σ.2.2.1 D cs β o i
    (σ.1, σ.2.1, σ.2.2.2) hin
  set τ := (neighborCandidates people0 cs i).foldl (infectCandidate D β o i)
    (σ.1, σ.2.1, σ.2.2.2) with hτdef
  obtain ⟨hpos, hnd, hbd, hiff, hdis, hR⟩ := hscan
  have hi_ni : i ∉ τ.2.1 := by
    intro hmem
    rcases hdis i hmem with h | h
    · exact h hi_mem
    · exact hi_rc h
  unfold processInfected
  rw [← hτdef]
  dsimp only
  split
  · -- recovery: state i := rst, i appended to recover
    have hit : i < τ.1.length := by rw [hpos.1]; exact hi_lt
    refine ⟨List.Sublist.append hsub (List.Sublist.refl [i]), ?_, ?_, ?_, ?_, ?_, ?_⟩
    · exact samePos_trans (samePos_setState _ _ _) hpos
    · exact hnd
    · exact hbd
    · intro j hj
      by_cases hji : j = i
      · subst hji
        rw [getD_setState_self _ _ _ hit]
        dsimp only
        constructor
        · intro hst
          rcases hrst with h | h <;> rw [h] at hst <;> cases hst
        · rintro (⟨_, hnr⟩ | hni)
          · exact absurd (List.mem_append.mpr (Or.inr (List.mem_singleton.mpr rfl))) hnr
          · exact absurd hni hi_ni
      · rw [getD_setState_ne _ _ _ _ hji, hiff j hj]
        have : (j ∈ σ.2.2.1 ++ [i]) ↔ j ∈ σ.2.2.1 := by
          simp only [List.mem_append, List.mem_singleton]
          exact ⟨fun h => h.elim id (fun h => absurd h hji), Or.inl⟩
        rw [this]
    · intro j hj
      rcases hdis j hj with h | h
      · exact Or.inl h
      · exact Or.inr (List.mem_append.mpr (Or.inl h))
    · intro hrstR j hj
      rcases List.mem_append.mp hj with h | h
      · have hji : j ≠ i := fun he => hi_rc (he ▸ h)
        rw [getD_setState_ne _ _ _ _ hji]
        exact hR hrstR j h
      · rw [List.mem_singleton] at h
        subst h
        rw [getD_setState_self _ _ _ hit, hrstR]
  · -- no recovery
    refine ⟨hsub.trans (List.sublist_append_left pre [i]), hpos, hnd, hbd, hiff, hdis, hR⟩

theorem fold_processInfected (rst : SState) (people0 : List Person)
    (infected0 : List Nat) (D cs : Int) (β γ : ℚ) (o : Oracle)
    (hrst : rst = SState.R ∨ rst = SState.S)
    (hinv : InfConsistent people0 infected0) :
    ∀ (suf pre : List Nat) (σ : List Person × List Nat × List Nat × Nat),
      pre ++ suf = infected0 → StepInv rst people0 infected0 pre σ →
      StepInv rst people0 infected0 infected0
        (suf.foldl (processInfected rst D β γ o people0 cs) σ) := by
  intro suf
  induction suf with
  | nil =>
    intro pre σ hps hσ
    rw [List.append_nil] at hps
    rw [List.foldl_nil]
    exact hps ▸ hσ
  | cons i suf' ih =>
    intro pre σ hps hσ
    rw [List.foldl_cons]
    have hi_mem : i ∈ infected0 := by
      rw [← hps]; exact List.mem_append.mpr (Or.inr (List.mem_cons_self i suf'))
    have hi_pre : i ∉ pre := by
      have hnd : (pre ++ i :: suf').Nodup := by rw [hps]; exact hinv.1
      exact fun h => (List.disjoint_of_nodup_append hnd) h (List.mem_cons_self i suf')
    refine ih (pre ++ [i]) _ ?_
      (processInfected_stepInv rst people0 infected0 pre D cs β γ o i hrst hinv
        hi_mem hi_pre σ hσ)
    rw [List.append_assoc]
    simpa using hps


/-- When the first value-match of `r` in `l` is `r` itself — guaranteed when
every value-match in `l` belongs to the not-yet-processed recover suffix
`r :: rest`, which is a subsequence of `l` — `list.remove` deletes exactly
the index `r`. -/
theorem removeFirstEq_eq_filter (ppl : List Person) (r : Nat) (rest : List Nat) :
    ∀ (l : List Nat), l.Nodup → (r :: rest).Sublist l →
      (∀ j ∈ l, ppl.getD j default = ppl.getD r default → j ∈ r :: rest) →
      removeFirstEq ppl l r = l.filter (fun j => decide (j ≠ r)) := by
  intro l
  induction l with
  | nil => intro _ hsub _; cases hsub
  | cons x t ih =>
    intro hnd hsub hcls
    by_cases hvx : ppl.getD x default = ppl.getD r default
    · have hx : x = r := by
        rcases List.mem_cons.mp (hcls x (List.mem_cons_self x t) hvx) with h | h
        · exact h
        · exfalso
          cases hsub with
          | cons _ hsub' =>
            exact (List.nodup_cons.mp hnd).1 (hsub'.subset (List.mem_cons_of_mem r h))
          | cons₂ _ hsub' =>
            exact (List.nodup_cons.mp hnd).1 (hsub'.subset h)
      subst hx
      rw [removeFirstEq, if_pos hvx, List.filter_cons_of_neg (by simp)]
      symm
      rw [List.filter_eq_self]
      intro a ha
      simp only [decide_eq_true_eq]
      exact fun he => (List.nodup_cons.mp hnd).1 (he ▸ ha)
    · have hxr : x ≠ r := fun h => hvx (h ▸ rfl)
      have hsub' : (r :: rest).Sublist t := by
        cases hsub with
        | cons _ h => exact h
        | cons₂ _ h => exact absurd rfl hxr
      rw [removeFirstEq, if_neg hvx, List.filter_cons_of_pos (by simpa using hxr),
        ih (List.nodup_cons.mp hnd).2 hsub'
          (fun j hj hvj => hcls j (List.mem_cons_of_mem x hj) hvj)]

theorem fold_removeFirstEq (ppl : List Person) (infected0 : List Nat)
    (hnd : infected0.Nodup) (rcAll : List Nat) (hrc : rcAll.Sublist infected0)
    (hcls : ∀ j ∈ infected0, ∀ r ∈ rcAll,
      ppl.getD j default = ppl.getD r default → j ∈ rcAll) :
    ∀ (rcSuf proc : List Nat), proc ++ rcSuf = rcAll →
      rcSuf.foldl (removeFirstEq ppl)
          (infected0.filter (fun j => decide (j ∉ proc)))
        = infected0.filter (fun j => decide (j ∉ rcAll)) := by
  have hrcnd : rcAll.Nodup := hrc.nodup hnd
  intro rcSuf
  induction rcSuf with
  | nil =>
    intro proc hpr
    rw [List.append_nil] at hpr
    rw [List.foldl_nil, hpr]
  | cons r rest ih =>
    intro proc hpr
    rw [List.foldl_cons]
    have hdisj : List.Disjoint proc (r :: rest) :=
      List.disjoint_of_nodup_append (by rw [hpr]; exact hrcnd)
    have hsuffilter : (r :: rest) = rcAll.filter (fun j => decide (j ∉ proc)) := by
      rw [← hpr, List.filter_append]
      have h1 : proc.filter (fun j => decide (j ∉ proc)) = [] := by
        rw [List.filter_eq_nil_iff]
        intro a ha
        simp [ha]
      have h2 : (r :: rest).filter (fun j => decide (j ∉ proc)) = r :: rest := by
        rw [List.filter_eq_self]
        intro a ha
        simpa using fun hmem => hdisj hmem ha
      rw [h1, h2, List.nil_append]
    have hsub2 : (r :: rest).Sublist (infected0.filter (fun j => decide (j ∉ proc))) := by
      rw [hsuffilter]
      exact hrc.filter _
    have hstep := removeFirstEq_eq_filter ppl r rest
      (infected0.filter (fun j => decide (j ∉ proc))) (hnd.filter _) hsub2
      (by
        intro j hj hvj
        have hj0 : j ∈ infected0 := (List.mem_filter.mp hj).1
        have hjp : j ∉ proc := by
          have := (List.mem_filter.mp hj).2
          simpa using this
        have hrmem : r ∈ rcAll := by
          rw [← hpr]
          exact List.mem_append.mpr (Or.inr (List.mem_cons_self r rest))
        have hjall : j ∈ rcAll := hcls j hj0 r hrmem hvj
        rw [← hpr] at hjall
        rcases List.mem_append.mp hjall with h | h
        · exact absurd h hjp
        · exact h)
    rw [hstep, List.filter_filter]
    have := ih (proc ++ [r]) (by rw [List.append_assoc]; simpa using hpr)
    rw [← this]
    congr 1
    apply List.filter_congr
    intro a _
    by_cases h1 : a ∈ proc <;> by_cases h2 : a = r <;> simp [h1, h2]


/-- Main helper: `step` preserves the infected-set invariant, in SIR
(`recover_to = R`) unconditionally and in SIS (`recover_to = S`) provided all
agents occupy pairwise distinct positions (so that the value-based
`list.remove` deletes the intended agent). -/
theorem step_infConsistent (rst : SState) (D cs : Int) (β γ : ℚ) (o : Oracle)
    (people0 : List Person) (infected0 : List Nat) (k : Nat)
    (hrst : rst = SState.R ∨ rst = SState.S)
    (hsep : rst = SState.R ∨ DistinctPos people0)
    (hinv : InfConsistent people0 infected0) :
    InfConsistent (step rst D β γ o people0 infected0 cs k).2.2.1
      (step rst D β γ o people0 infected0 cs k).1 := by
  have hinit : StepInv rst people0 infected0 [] (people0, [], [], k) := by
    refine ⟨List.nil_sublist [], samePos_refl people0, List.nodup_nil, ?_, ?_, ?_, ?_⟩
    · intro j hj; cases hj
    · intro j hj
      constructor
      · intro hst
        exact Or.inl ⟨(hinv.2.2 j hj).mpr hst, fun h => (List.not_mem_nil _ h)⟩
      · rintro (⟨hmem, _⟩ | hni)
        · exact (hinv.2.2 j hj).mp hmem
        · cases hni
    · intro j hj; cases hj
    · intro _ j hj; cases hj
  have hfold := fold_processInfected rst people0 infected0 D cs β γ o hrst hinv
    infected0 [] (people0, [], [], k) rfl hinit
  unfold step
  dsimp only
  set res := infected0.foldl (processInfected rst D β γ o people0 cs)
    (people0, [], [], k) with hres
  obtain ⟨hsub, hpos, hnd, hbd, hiff, hdis, hR⟩ := hfold
  have hcls : ∀ j ∈ infected0, ∀ r ∈ res.2.2.1,
      res.1.getD j default = res.1.getD r default → j ∈ res.2.2.1 := by
    intro j hj r hr hv
    rcases hsep with hsepR | hdp
    · have hrR := hR hsepR r hr
      have hjR : (res.1.getD j default).state = SState.R := by rw [hv, hrR]
      have hjlt := hinv.2.1 j hj
      by_contra hjrc
      have hjI : (res.1.getD j default).state = SState.I :=
        (hiff j hjlt).mpr (Or.inl ⟨hj, hjrc⟩)
      rw [hjR] at hjI
      cases hjI
    · have hjlt := hinv.2.1 j hj
      have hrlt := hinv.2.1 r (hsub.subset hr)
      by_cases hjr : j = r
      · exact hjr ▸ hr
      · exfalso
        rcases hdp j hjlt r hrlt hjr with hne | hne
        · exact hne (by rw [← (hpos.2 j).1, ← (hpos.2 r).1, hv])
        · exact hne (by rw [← (hpos.2 j).2, ← (hpos.2 r).2, hv])
  have hrem : res.2.2.1.foldl (removeFirstEq res.1) infected0
      = infected0.filter (fun j => decide (j ∉ res.2.2.1)) := by
    have h0 : infected0.filter (fun j => decide (j ∉ ([] : List Nat))) = infected0 := by
      rw [List.filter_eq_self]
      intro a _
      simp
    have hmain := fold_removeFirstEq res.1 infected0 hinv.1 res.2.2.1 hsub hcls
      res.2.2.1 [] rfl
    rw [h0] at hmain
    exact hmain
  rw [hrem]
  refine ⟨?_, ?_, ?_⟩
  · refine List.Nodup.append (hinv.1.filter _) hnd ?_
    intro a ha hb
    have hmem := List.mem_filter.mp ha
    have hnotin : a ∉ res.2.2.1 := by simpa using hmem.2
    rcases hdis a hb with h | h
    · exact h hmem.1
    · exact hnotin h
  · intro j hj
    rw [hpos.1]
    rcases List.mem_append.mp hj with h | h
    · exact hinv.2.1 j (List.mem_filter.mp h).1
    · exact hbd j h
  · intro j hj
    rw [hpos.1] at hj
    rw [List.mem_append, List.mem_filter]
    constructor
    · rintro (⟨hm, hf⟩ | hni)
      · exact (hiff j hj).mpr (Or.inl ⟨hm, by simpa using hf⟩)
      · exact (hiff j hj).mpr (Or.inr hni)
    · intro hst
      rcases (hiff j hj).mp hst with ⟨hm, hrc⟩ | hni
      · exact Or.inl ⟨hm, by simpa using hrc⟩
      · exact Or.inr hni


/-- C2 (corrected), amended claim: after `step`, the returned infected list
is exactly the set of agents whose state is `I`, each exactly once — in the
SIR variant (`recover_to = R`) unconditionally, and in the SIS variant
(`recover_to = S`) provided agents occupy pairwise distinct positions.  With
coincident positions SIS can break the invariant: a recovered-then-reinfected
agent makes `infected.remove` (which removes by VALUE) delete a different,
still-infected agent of equal value (see the counterexample). -/
theorem C2_infected_set_exact (rst : SState) (D cs : Int) (β γ : ℚ) (o : Oracle)
    (people : List Person) (infected : List Nat) (k : Nat)
    (hrst : rst = SState.R ∨ rst = SState.S)
    (hsep : rst = SState.R ∨ DistinctPos people)
    (hinv : InfConsistent people infected) :
    InfConsistent (step rst D β γ o people infected cs k).2.2.1
      (step rst D β γ o people infected cs k).1 :=
  step_infConsistent rst D cs β γ o people infected k hrst hsep hinv

/-- Witness for C2_infected_set_exact: a concrete SIS step on two agents at
distinct positions (the infected agent infects its susceptible neighbor). -/
theorem C2_infected_set_exact_witness :
    InfConsistent
      (step SState.S 10 1 (mkRat 1 2) ⟨fun _ => 1, fun _ => 0⟩
        [⟨SState.I, 0, 0⟩, ⟨SState.S, 3, 0⟩] [0] 10 0).2.2.1
      (step SState.S 10 1 (mkRat 1 2) ⟨fun _ => 1, fun _ => 0⟩
        [⟨SState.I, 0, 0⟩, ⟨SState.S, 3, 0⟩] [0] 10 0).1 :=
  C2_infected_set_exact SState.S 10 10 1 (mkRat 1 2) ⟨fun _ => 1, fun _ => 0⟩
    [⟨SState.I, 0, 0⟩, ⟨SState.S, 3, 0⟩] [0] 0
    (Or.inr rfl) (Or.inr (by decide)) (by decide)

/-- Counterexample to C2 as stated: an SIS step on three infected agents,
two of them at the same position (0,0).  Agent 1 recovers, is then reinfected
by agent 2 in the same step, and at removal time `infected.remove` deletes
the value-equal agent 0 instead: the returned list is `[1, 2, 1]` — agent 1
twice, and agent 0 (still state `I`) missing — violating the invariant. -/
theorem C2_infected_set_counterexample :
    ¬ InfConsistent
      (step SState.S 10 (mkRat 1 2) (mkRat 1 2)
        ⟨fun k => if k = 1 ∨ k = 2 then 0 else 1, fun _ => 0⟩
        [⟨SState.I, 0, 0⟩, ⟨SState.I, 0, 0⟩, ⟨SState.I, 1, 0⟩] [0, 1, 2] 10 0).2.2.1
      (step SState.S 10 (mkRat 1 2) (mkRat 1 2)
        ⟨fun k => if k = 1 ∨ k = 2 then 0 else 1, fun _ => 0⟩
        [⟨SState.I, 0, 0⟩, ⟨SState.I, 0, 0⟩, ⟨SState.I, 1, 0⟩] [0, 1, 2] 10 0).1 := by
  decide

/-- C4 (corrected), amended claim: in the SIS variant an agent that recovers
during a step transitions to `'S'` and is removed from the infected set, but
it CAN be reinfected within the very same step call by an infected agent
processed later in the iteration (see the counterexample); what holds is
that every agent whose state at the end of the step is still `'S'` is absent
from the returned infected list (for populations at pairwise distinct
positions satisfying the infected-set invariant). -/
theorem C4_recovered_not_in_infected (D cs : Int) (β γ : ℚ) (o : Oracle)
    (people : List Person) (infected : List Nat) (k : Nat)
    (hsep : DistinctPos people) (hinv : InfConsistent people infected) :
    ∀ j, j < people.length →
      ((step SState.S D β γ o people infected cs k).2.2.1.getD j default).state
        = SState.S →
      j ∉ (step SState.S D β γ o people infected cs k).1 := by
  intro j hj hstS hmem
  have hc := step_infConsistent SState.S D cs β γ o people infected k
    (Or.inr rfl) (Or.inr hsep) hinv
  have hlen : (step SState.S D β γ o people infected cs k).2.2.1.length
      = people.length :=
    (step_samePos SState.S D β γ o people infected cs k).1
  have hI := (hc.2.2 j (by rw [hlen]; exact hj)).mp hmem
  rw [hstS] at hI
  cases hI

/-- Witness for C4_recovered_not_in_infected: one infected agent with
recovery probability 1; it recovers to `'S'` and the returned infected list
does not contain it. -/
theorem C4_recovered_not_in_infected_witness :
    0 ∉ (step SState.S 10 1 1 ⟨fun _ => 0, fun _ => 0⟩
      [⟨SState.I, 0, 0⟩] [0] 10 0).1 :=
  C4_recovered_not_in_infected 10 10 1 1 ⟨fun _ => 0, fun _ => 0⟩
    [⟨SState.I, 0, 0⟩] [0] 0 (by decide) (by decide) 0 (by decide) (by decide)

/-- Counterexample to C4 as stated: two infected agents at distance 1.
Agent 0 recovers (one recovery is reported), but agent 1 — processed later in
the same step call — reinfects it immediately: both agents end the step in
state `'I'` and the returned infected list is `[1, 0]`, so the recovered
agent was infected again within the very step in which it recovered, not on
a later day. -/
theorem C4_same_step_reinfection_counterexample :
    (step SState.S 10 (mkRat 1 2) (mkRat 1 2)
      ⟨fun k => if k = 0 ∨ k = 1 then 0 else 1, fun _ => 0⟩
      [⟨SState.I, 0, 0⟩, ⟨SState.I, 1, 0⟩] [0, 1] 10 0).2.1 = 1 ∧
    (step SState.S 10 (mkRat 1 2) (mkRat 1 2)
      ⟨fun k => if k = 0 ∨ k = 1 then 0 else 1, fun _ => 0⟩
      [⟨SState.I, 0, 0⟩, ⟨SState.I, 1, 0⟩] [0, 1] 10 0).2.2.1
      = [⟨SState.I, 0, 0⟩, ⟨SState.I, 1, 0⟩] ∧
    (step SState.S 10 (mkRat 1 2) (mkRat 1 2)
      ⟨fun k => if k = 0 ∨ k = 1 then 0 else 1, fun _ => 0⟩
      [⟨SState.I, 0, 0⟩, ⟨SState.I, 1, 0⟩] [0, 1] 10 0).1 = [1, 0] := by
  decide

end Epi
